import Mathlib

/-!
Verification development for the CPR-Music real-time multitrack playback and
mixdown engine.  The JavaScript sources are shallowly embedded: numbers are
modelled as rationals (`ℚ`), JavaScript `undefined`/`null` field access as
`Option`, thrown errors as `Except`, and stateful classes as explicit state
records with pure transition functions.  The modelled record types restrict a
JS object to the fields actually consulted by the embedded functions; an
absent field follows the same `undefined`/`NaN` fall-through path as in the
source.
-/

/- ## Time Conversion Library (`src/lib/midiTimeUtils.js`) -/

/-- JS `Math.round`: rounds half toward `+∞`, i.e. `⌊x + 1/2⌋`, in an
executable form on `ℚ` (`Rat.floor` computes; `Int.floor` on `ℚ` does
not kernel-reduce). -/
def jsRound (x : ℚ) : ℤ :=
  (x + 1/2).floor

/-- `DEFAULT_PPQ = 480` from `midiTimeUtils.js`. -/
def DEFAULT_PPQ : ℚ := 480

/-- `DEFAULT_TEMPO = 120` from `midiTimeUtils.js`. -/
def DEFAULT_TEMPO : ℚ := 120

/-- A MIDI note as passed to `collectTrackMidiNotes` in `ClipPlayer.js`:
the embedded shape carries the beat-based `startTime`/`duration` fields, an
optional `velocity` and an explicit `freq` field.  Fields of the JS object
that are absent from this record behave as `undefined` in the source
(`Number(undefined) = NaN`, so every fall-through probe fails). -/
structure JNote where
  startTime : Option ℚ
  duration : Option ℚ
  velocity : Option ℚ
  freq : Option ℚ
deriving DecidableEq, Repr

/-- `track.midiData` object: imported-MIDI tempo/PPQ metadata, an optional
embedded offset and a note list. -/
structure MidiData where
  tempo : Option ℚ
  bpm : Option ℚ
  ppq : Option ℚ
  offsetSec : Option ℚ
  notes : List JNote
deriving DecidableEq, Repr

/-- An entry of `track.effects`: only the `enabled` flag is consulted by the
mixdown (`e.enabled !== false`). -/
structure EffectSpec where
  enabled : Option Bool
deriving DecidableEq, Repr

/-- An audio clip as consulted by the mixdown: source locator and timeline
placement (`start`), source offset and playout duration, all in seconds. -/
structure Clip where
  src : Option String
  start : Option ℚ
  offset : Option ℚ
  duration : Option ℚ
deriving DecidableEq, Repr

/-- A track, restricted to the fields the embedded functions consult:
identity, type string, mute/solo flags, clips, a plain `notes` container,
`midiData`, track-level `ppq`, the explicit MIDI offset and the track
`start` position, and the effects chain. -/
structure Track where
  id : ℕ
  type : String
  muted : Bool
  soloed : Bool
  clips : List Clip
  notes : List JNote
  midiData : Option MidiData
  ppq : Option ℚ
  midiOffsetSec : Option ℚ
  start : Option ℚ
  effects : List EffectSpec
deriving DecidableEq, Repr

/-- `getPPQ(track)` from `midiTimeUtils.js`: imported MIDI file's PPQ when
finite and positive, else track-level PPQ when finite and positive, else the
default 480. -/
def getPPQ (track : Track) : ℚ :=
  match track.midiData.bind MidiData.ppq with
  | some midiPPQ => if 0 < midiPPQ then midiPPQ else
      match track.ppq with
      | some trackPPQ => if 0 < trackPPQ then trackPPQ else DEFAULT_PPQ
      | none => DEFAULT_PPQ
  | none =>
      match track.ppq with
      | some trackPPQ => if 0 < trackPPQ then trackPPQ else DEFAULT_PPQ
      | none => DEFAULT_PPQ

/-- JS `a ?? b` on optional numbers. -/
def jsCoalesce (a b : Option ℚ) : Option ℚ :=
  match a with
  | some x => some x
  | none => b

/-- The `midiData.tempo ?? midiData.bpm` fall-through of `getTrackTempo`:
the imported MIDI file's tempo when finite and positive, else 120. -/
def getTrackTempoFallback (track : Track) : ℚ :=
  match jsCoalesce (track.midiData.bind MidiData.tempo)
      (track.midiData.bind MidiData.bpm) with
  | some midiTempo => if 0 < midiTempo then midiTempo else DEFAULT_TEMPO
  | none => DEFAULT_TEMPO

/-- `getTrackTempo(track, globalTempo)` from `midiTimeUtils.js`: the global
DAW tempo takes precedence whenever it is supplied (non-`null`), finite and
positive; otherwise the track's `midiData.tempo ?? midiData.bpm` when finite
and positive; otherwise `DEFAULT_TEMPO` (120). -/
def getTrackTempo (track : Track) (globalTempo : Option ℚ) : ℚ :=
  match globalTempo with
  | some g =>
      if 0 < g then g else getTrackTempoFallback track
  | none => getTrackTempoFallback track

/-- `ticksToBeats(ticks, ppq) = ticks / ppq`. -/
def ticksToBeats (ticks : ℚ) (ppq : ℚ := DEFAULT_PPQ) : ℚ :=
  ticks / ppq

/-- `beatsToTicks(beats, ppq) = Math.round(beats * ppq)`; JS `Math.round`
rounds half toward `+∞`, which is Mathlib's `round`. -/
def beatsToTicks (beats : ℚ) (ppq : ℚ := DEFAULT_PPQ) : ℚ :=
  (jsRound (beats * ppq) : ℤ)

/-- `beatsToSeconds(beats, tempo) = beats * 60 / tempo`. -/
def beatsToSeconds (beats : ℚ) (tempo : ℚ := 120) : ℚ :=
  beats * (60 / tempo)

/-- `secondsToBeats(seconds, tempo) = seconds * tempo / 60`. -/
def secondsToBeats (seconds : ℚ) (tempo : ℚ := 120) : ℚ :=
  seconds * (tempo / 60)

/- ### `validateMidiNote` -/

/-- A MIDI note as passed to `validateMidiNote`: `note` (pitch),
`startTime`, `duration` and optional `velocity`.  A `none` field behaves as
JS `undefined` (`Number(undefined) = NaN`, which fails every finiteness
check). -/
structure VNote where
  note : Option ℚ
  startTime : Option ℚ
  duration : Option ℚ
  velocity : Option ℚ
deriving DecidableEq, Repr

/-- The normalized note returned by a successful `validateMidiNote`. -/
structure NormNote where
  note : ℤ
  startTime : ℚ
  duration : ℚ
  velocity : ℚ
deriving DecidableEq, Repr

/-- The note format expected by validation: beat-based or seconds-based. -/
inductive NoteFormat where
  | beats
  | seconds
deriving DecidableEq, Repr

/-- Options of `validateMidiNote`/`validateMidiNotes`. -/
structure VOptions where
  format : NoteFormat := NoteFormat.beats
  strict : Bool := false
  maxDuration : Option ℚ := none
deriving DecidableEq, Repr

/-- The validation error messages pushed onto `errors` by
`validateMidiNote`, abstracted from their interpolated JS strings to tags
(one per `errors.push` site). -/
inductive VError where
  | invalidPitch
  | invalidStartTime
  | invalidDuration
  | durationExceedsMax
  | invalidVelocity
deriving DecidableEq, Repr

/-- Result of `validateMidiNote`: a normalized note, `null` (non-strict
rejection), or a thrown error carrying the collected messages (strict). -/
inductive VResult where
  | valid (n : NormNote)
  | nullResult
  | thrown (errors : List VError)
deriving DecidableEq, Repr

/-- `validateMidiNote(note, options)` from `midiTimeUtils.js`.  The default
maximum duration is `maxDuration || (format === 'seconds' ? 3600 : 1000)`
(JS `||`: an explicit `0` falls back to the default).  A `none` note models
a `null`/non-object argument. -/
def validateMidiNote (note : Option VNote) (options : VOptions := {}) : VResult :=
  let maxDur : ℚ :=
    match options.maxDuration with
    | some m => if m = 0 then (if options.format = NoteFormat.seconds then 3600 else 1000) else m
    | none => if options.format = NoteFormat.seconds then 3600 else 1000
  match note with
  | none => if options.strict then VResult.thrown [] else VResult.nullResult
  | some n =>
    let pitchErrs : List VError :=
      match n.note with
      | some p => if 0 ≤ p ∧ p ≤ 127 then [] else [VError.invalidPitch]
      | none => [VError.invalidPitch]
    let startErrs : List VError :=
      match n.startTime with
      | some s => if 0 ≤ s then [] else [VError.invalidStartTime]
      | none => [VError.invalidStartTime]
    let durErrs : List VError :=
      match n.duration with
      | some d =>
          if 0 < d then
            (if maxDur < d then [VError.durationExceedsMax] else [])
          else [VError.invalidDuration]
      | none => [VError.invalidDuration]
    let velocity : ℚ :=
      match n.velocity with
      | some v => v
      | none => 8/10
    let velErrs : List VError :=
      if 0 ≤ velocity ∧ velocity ≤ 1 then [] else [VError.invalidVelocity]
    let errors := pitchErrs ++ startErrs ++ durErrs ++ velErrs
    if errors = [] then
      VResult.valid
        { note := round (n.note.getD 0)
          startTime := n.startTime.getD 0
          duration := n.duration.getD 0
          velocity := max 0 (min 1 velocity) }
    else if options.strict then VResult.thrown errors
    else VResult.nullResult

/- ## Clip Player / Mixdown pipeline
     (`src/components/audio/DAW/Multitrack/ClipPlayer.js`) -/

/-- `toNumber(val, def)`: `Number(val)` when finite, else the default.  In
the `Option ℚ` model an absent (`undefined`) value is the only non-finite
input. -/
def toNumber (val : Option ℚ) (d : ℚ := 0) : ℚ :=
  val.getD d

/-- JS `a || b` on two optional numeric fields (`0` and `undefined` are
falsy; any other number, including negatives, is truthy). -/
def jsOrTruthy (a b : Option ℚ) : Option ℚ :=
  match a with
  | some x => if x = 0 then b else some x
  | none => b

/-- `Number(v) || next`: the numeric value when finite and non-zero, else
the fallback (`NaN` and `0` are falsy). -/
def numOr (v : Option ℚ) (next : ℚ) : ℚ :=
  match v with
  | some x => if x = 0 then next else x
  | none => next

/-- The `toSec` helper of `getTrackMidiBaseOffsetSec`: a finite non-zero
number passes through, otherwise `null`. -/
def offsetToSec (val : Option ℚ) : Option ℚ :=
  match val with
  | some n => if n = 0 then none else some n
  | none => none

/-- `getTrackMidiBaseOffsetSec(track, secPerBeat)` from `ClipPlayer.js`,
restricted to the offset fields present in the modelled `Track` record
(`track.midiOffsetSec`, `track.midiData.offsetSec`, and `track.start` for
MIDI tracks); the beats-denominated variants and the legacy piano-roll
fields are absent from the record and hence take the same `null` path as an
absent JS field.  Precedence-based selection, never accumulation; the result
is clamped to `≥ 0`. -/
def getTrackMidiBaseOffsetSec (track : Track) (secPerBeat : ℚ) : ℚ :=
  -- Category 1: explicit track-level offset
  let offsetSec : ℚ :=
    match offsetToSec track.midiOffsetSec with
    | some explicitSecOffset => explicitSecOffset
    | none => 0
  -- Category 3: MIDI data embedded offset (only if no higher priority offset)
  let offsetSec : ℚ :=
    if offsetSec = 0 then
      match track.midiData with
      | some md =>
          match offsetToSec md.offsetSec with
          | some midiDataSecOffset => midiDataSecOffset
          | none => 0
      | none => 0
    else offsetSec
  -- Category 5: track start position (only for MIDI tracks)
  let offsetSec : ℚ :=
    if offsetSec = 0 ∧ track.type = "midi" then
      match offsetToSec track.start with
      | some startSecOffset => startSecOffset
      | none => 0
    else offsetSec
  max 0 offsetSec

/-- A collected MIDI note as produced by `collectTrackMidiNotes`: absolute
time and duration in seconds, velocity in `[0,1]`, frequency in Hz. -/
structure CNote where
  time : ℚ
  duration : ℚ
  velocity : ℚ
  freq : ℚ
deriving DecidableEq, Repr

/-- The `timeFromNote` closure of `collectTrackMidiNotes`, on the modelled
note shape: a finite beat-based `startTime` is converted via `secPerBeat`
and clamped to `≥ 0`; with every other time field absent the fall-through
chain ends at `0`. -/
def timeFromNote (secPerBeat : ℚ) (n : JNote) : ℚ :=
  match n.startTime with
  | some v => max 0 (v * secPerBeat)
  | none => 0

/-- The `durationFromNote` closure of `collectTrackMidiNotes`, on the
modelled note shape: a finite beat-based `duration` is converted via
`secPerBeat` and clamped to `≥ 0`; with every other duration field absent
the fall-through chain ends at `0`. -/
def durationFromNote (secPerBeat : ℚ) (n : JNote) : ℚ :=
  match n.duration with
  | some v => max 0 (v * secPerBeat)
  | none => 0

/-- The `pushNote` closure of `collectTrackMidiNotes`: resolves time,
duration, velocity and frequency; a note with non-positive duration or
without a positive frequency is dropped.  (On the modelled note shape the
frequency is carried explicitly in `n.freq`; the pitch-name/MIDI-number
conversions concern fields absent from the record.) -/
def pushNote (secPerBeat baseOffsetSec extraOffsetSec : ℚ) (n : JNote) : Option CNote :=
  let timeLocal := timeFromNote secPerBeat n
  let time := max 0 (timeLocal + baseOffsetSec + extraOffsetSec)
  let dur := durationFromNote secPerBeat n
  if dur ≤ 0 then none
  else
    let vel := max 0 (min 1 (toNumber n.velocity 1))
    match n.freq with
    | some freq => if 0 < freq then some ⟨time, max 0 dur, vel, freq⟩ else none
    | none => none

/-- The sort comparator `a.time - b.time || a.freq - b.freq ||
a.duration - b.duration` as a boolean `≤` on the induced lexicographic
order. -/
def cnoteLE (a b : CNote) : Bool :=
  decide (a.time < b.time ∨ (a.time = b.time ∧
    (a.freq < b.freq ∨ (a.freq = b.freq ∧ a.duration ≤ b.duration))))

/-- Stable insertion of an element into a sorted list: elements that
compare `≤` (including ties) stay in front, preserving their original
relative order. -/
def insertSorted (le : CNote → CNote → Bool) (x : CNote) :
    List CNote → List CNote
  | [] => [x]
  | y :: ys => if le y x then y :: insertSorted le x ys else x :: y :: ys

/-- `Array.prototype.sort` with a consistent comparator, per the ES2019
spec: a *stable* sort by the comparator order.  Modelled as stable
insertion sort, which produces the same output as any stable sort for a
total preorder comparator such as `cnoteLE`. -/
def stableSortBy (le : CNote → CNote → Bool) : List CNote → List CNote
  | [] => []
  | x :: xs => insertSorted le x (stableSortBy le xs)

/-- `r(x, p) = Math.round(x * p) / p` — the fixed-precision keying helper of
the dedup step. -/
def roundPrec (x p : ℚ) : ℚ :=
  ((jsRound (x * p) : ℤ) : ℚ) / p

/-- The dedup key `r(time,1000) | r(duration,1000) | r(freq,10)` (1ms / 1ms
/ 0.1Hz fixed-precision buckets). -/
def noteKey (n : CNote) : ℚ × ℚ × ℚ :=
  (roundPrec n.time 1000, roundPrec n.duration 1000, roundPrec n.freq 10)

/-- The dedup loop of `collectTrackMidiNotes`: keep a note only when its
fixed-precision key has not been seen yet. -/
def dedupNotesGo : List CNote → List (ℚ × ℚ × ℚ) → List CNote → List CNote
  | [], _, acc => acc
  | n :: rest, seen, acc =>
      if noteKey n ∈ seen then dedupNotesGo rest seen acc
      else dedupNotesGo rest (noteKey n :: seen) (acc ++ [n])

/-- The `tempo` argument of `collectTrackMidiNotes`
(`{ bpm, stepsPerBeat }`). -/
structure TempoArg where
  bpm : Option ℚ := none
  stepsPerBeat : Option ℚ := none
deriving DecidableEq, Repr

/-- `collectTrackMidiNotes(track, tempo)` from `ClipPlayer.js`, on the
modelled track shape: the populated note containers are `track.notes` and
`track.midiData.notes` (the other substructures — getter objects, MIDI
clips/regions, event streams, step grids — are absent from the record and
contribute nothing, exactly as absent JS fields do).  Tempo resolution,
per-note normalization through `pushNote`, the comparator sort and the
fixed-precision dedup follow the source.  Tick-based note fields are absent
from the modelled shape, so `secPerTick` is never consulted. -/
def collectTrackMidiNotes (track : Track) (tempo : TempoArg := ⟨some 120, some 4⟩) : List CNote :=
  let bpm := numOr tempo.bpm
    (numOr (jsOrTruthy (track.midiData.bind MidiData.tempo)
      (track.midiData.bind MidiData.bpm)) 120)
  let secPerBeat := 60 / bpm
  let baseOffsetSec := getTrackMidiBaseOffsetSec track secPerBeat
  let out :=
    track.notes.filterMap (pushNote secPerBeat baseOffsetSec 0) ++
      ((track.midiData.map MidiData.notes).getD []).filterMap
        (pushNote secPerBeat baseOffsetSec 0)
  dedupNotesGo (stableSortBy cnoteLE out) [] []

/-- The mixdown inclusion filter of `mixdownClipsAndMidi` (`ClipPlayer.js`):
`soloIds` is the set of ids of soloed tracks; a track passes iff it has a
clip or a collectible MIDI note, and — when any track is soloed — its id is
in `soloIds` and it is not muted, otherwise simply when it is not muted. -/
def includedTracks (tracks : List Track) (bpm : ℚ) : List Track :=
  let soloIds := (tracks.filter (fun t => t.soloed)).map Track.id
  tracks.filter (fun t =>
    let hasAudio := decide (0 < t.clips.length)
    let hasMidi := decide (0 < (collectTrackMidiNotes t ⟨some bpm, none⟩).length)
    if !hasAudio && !hasMidi then false
    else if 0 < soloIds.length then soloIds.contains t.id && !t.muted
    else !t.muted)

/-- The per-track portion of the project-duration fold in
`mixdownClipsAndMidi`: latest audio-clip end against the decoded buffer
durations (`decode` models the `bufferMap` lookup), and the MIDI end from
the pre-rendered MIDI buffer (`midiRender`, keyed by track id) or, as
fallback, from the collected notes. -/
def trackEndTime (decode : String → Option ℚ) (midiRender : ℕ → Option ℚ)
    (bpm : ℚ) (track : Track) : ℚ :=
  let endAudio := track.clips.foldl (fun endAudio c =>
    match c.src.bind decode with
    | none => endAudio
    | some bufDuration =>
        let off := max 0 (toNumber c.offset 0)
        let dur := max 0 (min (toNumber c.duration 0) (max 0 (bufDuration - off)))
        max endAudio (toNumber c.start 0 + dur)) 0
  let endMidi :=
    match midiRender track.id with
    | some midiBufferDuration => midiBufferDuration
    | none => (collectTrackMidiNotes track ⟨some bpm, none⟩).foldl
        (fun endMidi n => max endMidi (n.time + n.duration)) 0
  max endAudio endMidi

/-- The project duration resolved by `mixdownClipsAndMidi`: maximum of the
included tracks' end times, starting from `0`. -/
def resolvedProjectDuration (included : List Track) (decode : String → Option ℚ)
    (midiRender : ℕ → Option ℚ) (bpm : ℚ) : ℚ :=
  included.foldl (fun maxT t => max maxT (trackEndTime decode midiRender bpm t)) 0

/-- The control skeleton of `mixdownClipsAndMidi(tracks, sampleRateHint,
onProgress, bpm)` up to the start of rendering: the inclusion filter, the
zero-audible-tracks abort, the duration resolution and the zero-duration
abort.  Audio decoding and MIDI pre-rendering are parameterized (`decode`,
`midiRender`); on success the resolved project duration (handed to the
offline render) is returned. -/
def mixdownClipsAndMidi (tracks : List Track) (decode : String → Option ℚ)
    (midiRender : ℕ → Option ℚ) (bpm : ℚ := 120) : Except String ℚ :=
  let included := includedTracks tracks bpm
  if included.length = 0 then
    Except.error "No audible tracks (audio or MIDI) to mix down."
  else
    let projectDuration := resolvedProjectDuration included decode midiRender bpm
    if projectDuration ≤ 0 then
      Except.error "Project duration is 0 — nothing to render."
    else
      Except.ok projectDuration

/-- `processTrackEffects(buffer, track, audioContext)` from `ClipPlayer.js`:
filters the enabled effects (`e.enabled !== false`); with none, the buffer
passes through untouched; otherwise the external effects-chain collaborator
(`processEffectsChain`, modelled as a parameter over an abstract buffer
type) is applied to the whole buffer, and on any error the original buffer
is returned instead of propagating the failure. -/
def processTrackEffects {α : Type} (buffer : α) (track : Track)
    (processEffectsChain : α → List EffectSpec → Except String α) : α :=
  let enabledEffects := track.effects.filter (fun e => e.enabled != some false)
  if enabledEffects.length = 0 then buffer
  else
    match processEffectsChain buffer enabledEffects with
    | Except.ok processedBuffer => processedBuffer
    | Except.error _ => buffer

/- ## Note Scheduler
     (`src/components/audio/DAW/Multitrack/ImprovedNoteScheduler.js`) -/

/-- A note held by the scheduler (`this.notes`), in SECONDS format:
`{ note, startTime, duration, velocity }`. -/
structure SNote where
  note : ℚ
  startTime : ℚ
  duration : ℚ
  velocity : ℚ
deriving DecidableEq, Repr

/-- The dedup key `${note.note}-${note.startTime}` of `scheduleNotes`,
modelled as the pair of numbers. -/
def snoteKey (n : SNote) : ℚ × ℚ :=
  (n.note, n.startTime)

/-- A scheduled-note record held in `this.scheduledNotes`:
`{ noteOnTime, noteOffTime, note }`. -/
structure SchedRec where
  noteOnTime : ℚ
  noteOffTime : ℚ
  note : ℚ
deriving DecidableEq, Repr

/-- The scheduler state consulted by `scheduleNotes`: play flag, presence of
an instrument, tempo, lookahead window, the audio-context time of beat 0
(`this.startTime`), the note list, and the scheduled-notes map (`Map`
modelled as an association list with unique keys maintained by
insert-if-absent).  The performance counters do not influence scheduling
decisions and are omitted. -/
structure SchedState where
  isPlaying : Bool
  hasInstrument : Bool
  tempo : ℚ
  lookaheadTime : ℚ
  startTime : ℚ
  notes : List SNote
  scheduledNotes : List ((ℚ × ℚ) × SchedRec)
deriving DecidableEq, Repr

/-- `this.scheduledNotes.has(key)`. -/
def schedHas (m : List ((ℚ × ℚ) × SchedRec)) (k : ℚ × ℚ) : Bool :=
  m.any (fun kv => decide (kv.1 = k))

/-- The note-scanning loop of `scheduleNotes`: walks `notes`, and for each
note inside `[currentSeconds, currentSeconds + lookaheadTime)` whose key is
not yet in the map, emits one on/off submission pair to the shared clock and
inserts the scheduled record.  Returns the updated map and the list of keys
submitted (one entry per on/off pair, in order). -/
def schedLoop (S currentSeconds scheduleEndSeconds : ℚ) :
    List SNote → List ((ℚ × ℚ) × SchedRec) → List (ℚ × ℚ) →
    List ((ℚ × ℚ) × SchedRec) × List (ℚ × ℚ)
  | [], m, subs => (m, subs)
  | note :: rest, m, subs =>
      let noteKey := snoteKey note
      if currentSeconds ≤ note.startTime ∧ note.startTime < scheduleEndSeconds ∧
          ¬ schedHas m noteKey then
        let noteOnTime := S + note.startTime
        let noteOffTime := S + note.startTime + note.duration
        schedLoop S currentSeconds scheduleEndSeconds rest
          (m ++ [(noteKey, ⟨noteOnTime, noteOffTime, note.note⟩)])
          (subs ++ [noteKey])
      else
        schedLoop S currentSeconds scheduleEndSeconds rest m subs

/-- One invocation of `scheduleNotes` at audio-context time `now` (the
clock does not advance during the synchronous tick).  Computes the current
position (`getCurrentBeat` then `beatsToSeconds`), runs the scanning loop,
then cleans up records whose `noteOffTime` has strictly passed `now`.
Returns the new state and the keys submitted to the shared clock during the
tick.  (A synchronously-fired note-off callback would delete its key before
`scheduledNotes.set` re-inserts it, so the insert is what survives — the
association list reflects that.) -/
def scheduleNotes (s : SchedState) (now : ℚ) : SchedState × List (ℚ × ℚ) :=
  if ¬ s.isPlaying ∨ ¬ s.hasInstrument then (s, [])
  else
    let currentBeat := secondsToBeats (now - s.startTime) s.tempo
    let currentSeconds := beatsToSeconds currentBeat s.tempo
    let scheduleEndSeconds := currentSeconds + s.lookaheadTime
    let (m, subs) :=
      schedLoop s.startTime currentSeconds scheduleEndSeconds s.notes
        s.scheduledNotes []
    let cleaned := m.filter (fun kv => ¬ kv.2.noteOffTime < now)
    ({ s with scheduledNotes := cleaned }, subs)

/- ## Background Audio Decoder
     (`src/components/audio/DAW/Multitrack/AudioProcessor.js`) -/

/-- `this.workerRecovery` — the supervised-restart bookkeeping of
`AudioProcessor`. -/
structure WorkerRecovery where
  maxRetries : ℕ
  currentRetries : ℕ
  cooldownMs : ℕ
  maxCooldownMs : ℕ
  recoveryScheduled : Bool
  lastFailureTime : Option ℕ
  consecutiveFailures : ℕ
deriving DecidableEq, Repr

/-- The `AudioProcessor` state: worker capability flag, live-worker flag,
the in-flight job queue (`processingQueue`, job ids), recovery bookkeeping
and the stats counters touched by the error/recovery paths. -/
structure APState where
  workerSupported : Bool
  workerAlive : Bool
  processingQueue : List ℕ
  workerRecovery : WorkerRecovery
  fallbacks : ℕ
  workerRestarts : ℕ
deriving DecidableEq, Repr

/-- The fresh recovery configuration from the `AudioProcessor` constructor:
`maxRetries=3`, `cooldownMs=5000`, `maxCooldownMs=60000`. -/
def initialWorkerRecovery : WorkerRecovery :=
  { maxRetries := 3
    currentRetries := 0
    cooldownMs := 5000
    maxCooldownMs := 60000
    recoveryScheduled := false
    lastFailureTime := none
    consecutiveFailures := 0 }

/-- `scheduleWorkerRecovery()`: no-op when a recovery is already scheduled;
otherwise marks one scheduled, bumps `currentRetries`, and computes the
backoff delay `min(cooldownMs * 2^(currentRetries-1), maxCooldownMs)` for
the timer.  Returns the new state and the delay handed to `setTimeout`. -/
def scheduleWorkerRecovery (s : APState) : APState × Option ℕ :=
  if s.workerRecovery.recoveryScheduled then (s, none)
  else
    let r := s.workerRecovery.currentRetries + 1
    let backoffMultiplier := 2 ^ (r - 1)
    let cooldownMs := min (s.workerRecovery.cooldownMs * backoffMultiplier)
      s.workerRecovery.maxCooldownMs
    ({ s with workerRecovery :=
        { s.workerRecovery with recoveryScheduled := true, currentRetries := r } },
      some cooldownMs)

/-- `handleWorkerError(error)` at wall-clock time `now`: records the
failure, drains the whole `processingQueue` re-dispatching every in-flight
job to the main-thread fallback, terminates the dead worker, and either
schedules a backoff recovery (when retries remain and none is pending) or
permanently disables worker use.  Returns the new state, the jobs
re-dispatched to the fallback path, and the scheduled recovery delay (if
any). -/
def handleWorkerError (s : APState) (now : ℕ) : APState × List ℕ × Option ℕ :=
  let pendingOps := s.processingQueue
  let s1 : APState :=
    { s with
        workerRecovery :=
          { s.workerRecovery with
              lastFailureTime := some now
              consecutiveFailures := s.workerRecovery.consecutiveFailures + 1 }
        processingQueue := []
        fallbacks := s.fallbacks + pendingOps.length
        workerAlive := false }
  let canRecover := s1.workerRecovery.currentRetries < s1.workerRecovery.maxRetries
  if canRecover ∧ ¬ s1.workerRecovery.recoveryScheduled then
    let (s2, delay) := scheduleWorkerRecovery s1
    (s2, pendingOps, delay)
  else if ¬ canRecover then
    ({ s1 with workerSupported := false }, pendingOps, none)
  else
    (s1, pendingOps, none)

/-- `initializeWorker()`: success leaves a live worker; failure (the
`catch` branch) clears the worker and disables worker support.  Whether
worker construction succeeds is environmental and passed as `ok`. -/
def initializeWorker (s : APState) (ok : Bool) : APState :=
  if ok then { s with workerAlive := true }
  else { s with workerAlive := false, workerSupported := false }

/-- `attemptWorkerRecovery()` when the backoff timer fires: clears the
scheduled flag; skips when worker support was disabled; otherwise
re-initializes the worker — success bumps `workerRestarts` and resets
`consecutiveFailures`, failure schedules another backoff while retries
remain and otherwise permanently disables worker use.  Returns the new
state and a possible next backoff delay. -/
def attemptWorkerRecovery (s : APState) (initOk : Bool) : APState × Option ℕ :=
  let s1 := { s with workerRecovery :=
    { s.workerRecovery with recoveryScheduled := false } }
  if ¬ s1.workerSupported then (s1, none)
  else
    let s2 := initializeWorker s1 initOk
    if s2.workerAlive then
      ({ s2 with
          workerRestarts := s2.workerRestarts + 1
          workerRecovery := { s2.workerRecovery with consecutiveFailures := 0 } },
        none)
    else if s2.workerRecovery.currentRetries < s2.workerRecovery.maxRetries then
      scheduleWorkerRecovery s2
    else
      ({ s2 with workerSupported := false }, none)

/-- The path decision of `processAudioFile`: the worker is used only when
`this.workerSupported && this.worker`; otherwise the job runs on the
main-thread fallback. -/
def jobUsesWorker (s : APState) : Bool :=
  s.workerSupported && s.workerAlive

/- ## Shared Clock
     (`src/components/audio/DAW/Multitrack/AudioContextManager.js`) -/

/-- The cancellation handle returned by `scheduleAtTime`, by branch: the
already-past branch returns a no-op handle (`{ cancel: () => {} }`); the
short-delay branch owns a `requestAnimationFrame` polling loop; the
long-delay branch owns a timeout with a precision check. -/
inductive ScheduleHandle where
  | noop
  | rafPoll
  | timerWait
deriving DecidableEq, Repr

/-- Whether a handle still has a pending (asynchronous) callback
invocation attached; the no-op handle from the already-past branch has
none. -/
def handlePending : ScheduleHandle → Bool
  | ScheduleHandle.noop => false
  | ScheduleHandle.rafPoll => true
  | ScheduleHandle.timerWait => true

/-- Invoking a handle's `cancel` never runs the callback; on the no-op
handle it does nothing at all, so the state (here: anything the callback
mutates) is untouched. -/
def cancelHandle {σ : Type} : ScheduleHandle → σ → σ
  | ScheduleHandle.noop, s => s
  | ScheduleHandle.rafPoll, s => s
  | ScheduleHandle.timerWait, s => s

/-- `AudioContextManager.scheduleAtTime(callback, audioTime)` — the
synchronous part of the call, with the callback's effect threaded through
state `σ`: when `delay = audioTime - now ≤ 0` the callback runs
synchronously exactly once and a no-op handle is returned; otherwise no
synchronous call happens and the branch for short (`< 50ms` → rAF polling)
or long (timeout) delays is taken. -/
def scheduleAtTime {σ : Type} (callback : σ → σ) (audioTime : ℚ) (now : ℚ)
    (state : σ) : σ × ScheduleHandle :=
  let delay := audioTime - now
  if delay ≤ 0 then (callback state, ScheduleHandle.noop)
  else if delay < 1/20 then (state, ScheduleHandle.rafPoll)
  else (state, ScheduleHandle.timerWait)

/- ## Concrete sample data used by individual claims -/

/-- A track with every optional field absent and all containers empty. -/
def emptyTrack : Track :=
  { id := 0
    type := "audio"
    muted := false
    soloed := false
    clips := []
    notes := []
    midiData := none
    ppq := none
    midiOffsetSec := none
    start := none
    effects := [] }

/-- A track whose imported MIDI data carries tempo 90 BPM. -/
def trackMidi90 : Track :=
  { emptyTrack with
    type := "midi"
    midiData := some { tempo := some 90, bpm := none, ppq := none,
                       offsetSec := none, notes := [] } }

/-- Inclusion-scenario track A: soloed, unmuted, carries one audio clip. -/
def inclTrackA : Track :=
  { emptyTrack with
    id := 0
    soloed := true
    clips := [{ src := some "a.wav", start := some 0, offset := some 0,
                duration := some 1 }] }

/-- Inclusion-scenario track B: muted, not soloed, carries one audio clip
(otherwise eligible). -/
def inclTrackB : Track :=
  { emptyTrack with
    id := 1
    muted := true
    clips := [{ src := some "b.wav", start := some 0, offset := some 0,
                duration := some 1 }] }

/-- A track with one clip whose source never decodes — included in the
mixdown but of resolved duration 0. -/
def undecodableClipTrack : Track :=
  { emptyTrack with
    id := 2
    clips := [{ src := some "missing.wav", start := some 0, offset := some 0,
                duration := some 1 }] }

/-- A MIDI track holding two near-coincident notes: beat positions
`0.0008` and `0.0012` at 120 BPM give start times `0.0004 s` and
`0.0006 s` — within 1 ms of each other but on opposite sides of a
millisecond rounding boundary. -/
def nearDuplicateTrack : Track :=
  { emptyTrack with
    type := "midi"
    notes :=
      [ { startTime := some (8/10000), duration := some 1, velocity := none,
          freq := some 440 }
      , { startTime := some (12/10000), duration := some 1, velocity := none,
          freq := some 440 } ] }

/-- A fresh `AudioProcessor` state with a live worker and one in-flight
job (id 7). -/
def apStart : APState :=
  { workerSupported := true
    workerAlive := true
    processingQueue := [7]
    workerRecovery := initialWorkerRecovery
    fallbacks := 0
    workerRestarts := 0 }

/-- Worker-failure scenario, step 1: first crash (at time 0). -/
def apErr1 : APState × List ℕ × Option ℕ := handleWorkerError apStart 0

/-- Recovery attempt 1 fires; the worker comes back up. -/
def apRec1 : APState × Option ℕ := attemptWorkerRecovery apErr1.1 true

/-- Step 2: second crash. -/
def apErr2 : APState × List ℕ × Option ℕ := handleWorkerError apRec1.1 1

/-- Recovery attempt 2 fires; the worker comes back up. -/
def apRec2 : APState × Option ℕ := attemptWorkerRecovery apErr2.1 true

/-- Step 3: third crash. -/
def apErr3 : APState × List ℕ × Option ℕ := handleWorkerError apRec2.1 2

/-- Recovery attempt 3 fires; the worker comes back up. -/
def apRec3 : APState × Option ℕ := attemptWorkerRecovery apErr3.1 true

/-- Step 4: fourth crash — the three retries are exhausted. -/
def apErr4 : APState × List ℕ × Option ℕ := handleWorkerError apRec3.1 3

/-- Scheduler state for the idempotence witness: playing, one valid note,
200 ms lookahead at 120 BPM. -/
def schedSample : SchedState :=
  { isPlaying := true
    hasInstrument := true
    tempo := 120
    lookaheadTime := 1/5
    startTime := 0
    notes := [{ note := 60, startTime := 0, duration := 1/2, velocity := 8/10 }]
    scheduledNotes := [] }

/- ## Theorems -/

/-- C1, counterexample: a track whose `midiData.tempo` is the positive
finite value 90 does *not* win over a supplied positive finite global tempo
of 140 — `getTrackTempo` returns 140, refuting the claimed
MIDI-file-tempo-first precedence. -/
theorem getTrackTempo_midi_not_highest :
    getTrackTempo trackMidi90 (some 140) = 140 ∧ (140 : ℚ) ≠ 90 := by
  exact ⟨by decide, by norm_num⟩

/-- C1, amended: the global transport tempo has the *highest* precedence in
`getTrackTempo` — any supplied positive finite global tempo is returned
as-is; the per-track MIDI-file tempo applies only when no positive global
value is supplied, and the default 120 BPM applies below that. -/
theorem getTrackTempo_global_precedence (track : Track) (g m : ℚ)
    (hg : 0 < g)
    (hm : jsCoalesce (track.midiData.bind MidiData.tempo)
      (track.midiData.bind MidiData.bpm) = some m)
    (hmpos : 0 < m) :
    getTrackTempo track (some g) = g ∧ getTrackTempo track none = m := by
  unfold getTrackTempo getTrackTempoFallback
  rw [hm]
  simp [hg, hmpos]

/-- C1, witness: the amended precedence at the concrete 90-BPM-MIDI track
with global tempo 140. -/
theorem getTrackTempo_global_precedence_witness :
    getTrackTempo trackMidi90 (some 140) = 140 ∧
      getTrackTempo trackMidi90 none = 90 :=
  getTrackTempo_global_precedence trackMidi90 140 90 (by norm_num) (by decide)
    (by norm_num)

/-- C4, counterexample: with default options a beats-format note of
duration 3601 is *rejected* (`null`), refuting "accepted in beats format" —
the default beats maximum is 1000, not 3600. -/
theorem validateMidiNote_beats_3601_rejected :
    validateMidiNote (some ⟨some 60, some 0, some 3601, none⟩) {} =
      VResult.nullResult := by
  with_unfolding_all decide

/-- C4, amended: with default options `validateMidiNote` rejects pitch 128
and accepts pitch 127, rejects duration 0, and rejects duration 3601 in
*both* formats (default maxima: 3600 seconds-format, 1000 beats-format). -/
theorem validateMidiNote_boundaries :
    validateMidiNote (some ⟨some 128, some 0, some 1, none⟩) {} =
      VResult.nullResult ∧
    validateMidiNote (some ⟨some 127, some 0, some 1, none⟩) {} =
      VResult.valid ⟨127, 0, 1, 8/10⟩ ∧
    validateMidiNote (some ⟨some 60, some 0, some 0, none⟩) {} =
      VResult.nullResult ∧
    validateMidiNote (some ⟨some 60, some 0, some 3601, none⟩)
      { format := NoteFormat.seconds } = VResult.nullResult ∧
    validateMidiNote (some ⟨some 60, some 0, some 3601, none⟩)
      { format := NoteFormat.beats } = VResult.nullResult := by
  with_unfolding_all decide

/-- `jsRound` agrees with Mathlib's `round` (both are `⌊x + 1/2⌋`). -/
theorem jsRound_eq_round (x : ℚ) : jsRound x = round x := by
  rw [jsRound, round_eq, Rat.floor_def, Rat.floor_def']

/-- C5: the beats→ticks→beats round trip is exact up to the tick rounding —
for positive `ppq` and non-negative `b`, the error is at most
`1 / (2 * ppq)`. -/
theorem ticksToBeats_beatsToTicks_roundtrip (ppq b : ℚ)
    (hppq : 0 < ppq) (hb : 0 ≤ b) :
    |ticksToBeats (beatsToTicks b ppq) ppq - b| ≤ 1 / (2 * ppq) := by
  unfold ticksToBeats beatsToTicks
  have h1 : ((jsRound (b * ppq) : ℤ) : ℚ) / ppq - b =
      (((jsRound (b * ppq) : ℤ) : ℚ) - b * ppq) / ppq := by
    field_simp
    ring
  rw [h1, abs_div, abs_of_pos hppq]
  have h2 : |((jsRound (b * ppq) : ℤ) : ℚ) - b * ppq| ≤ 1 / 2 := by
    rw [jsRound_eq_round, abs_sub_comm]
    exact abs_sub_round (b * ppq)
  calc |((jsRound (b * ppq) : ℤ) : ℚ) - b * ppq| / ppq
      ≤ (1 / 2) / ppq := by gcongr
    _ = 1 / (2 * ppq) := by rw [div_div]

/-- C5, witness: the round trip at `ppq = 480`, `b = 7/3`. -/
theorem ticksToBeats_beatsToTicks_roundtrip_witness :
    (0 : ℚ) < 480 ∧ (0 : ℚ) ≤ 7/3 ∧
      |ticksToBeats (beatsToTicks (7/3) 480) 480 - 7/3| ≤ 1 / (2 * 480) :=
  ⟨by norm_num, by norm_num,
    ticksToBeats_beatsToTicks_roundtrip 480 (7/3) (by norm_num) (by norm_num)⟩

/-- C2: the mixdown inclusion filter — under distinct track ids, a track of
the project is included iff it has at least one clip or at least one
collectible MIDI note, is not muted, and, whenever any track of the project
is soloed, is itself soloed; and in the concrete scenario with track A
soloed and track B muted (both otherwise eligible) only A is included. -/
theorem mixdown_inclusion_filter (tracks : List Track) (bpm : ℚ) (t : Track)
    (hids : (tracks.map Track.id).Nodup) (ht : t ∈ tracks) :
    (t ∈ includedTracks tracks bpm ↔
      ((t.clips ≠ [] ∨ collectTrackMidiNotes t ⟨some bpm, none⟩ ≠ []) ∧
        t.muted = false ∧
        ((∃ u ∈ tracks, u.soloed = true) → t.soloed = true))) ∧
    includedTracks [inclTrackA, inclTrackB] 120 = [inclTrackA] := by
  refine ⟨?_, by with_unfolding_all decide⟩
  have hcontains :
      ((tracks.filter (fun v => v.soloed)).map Track.id).contains t.id = true ↔
        t.soloed = true := by
    constructor
    · intro hc
      have hmem : t.id ∈ (tracks.filter (fun v => v.soloed)).map Track.id := by
        simpa [List.contains, List.elem_iff] using hc
      obtain ⟨v, hvf, hvid⟩ := List.mem_map.mp hmem
      obtain ⟨hv1, hv2⟩ := List.mem_filter.mp hvf
      have hveq : v = t := List.inj_on_of_nodup_map hids hv1 ht hvid
      rw [← hveq]
      exact hv2
    · intro hsol
      have : t.id ∈ (tracks.filter (fun v => v.soloed)).map Track.id :=
        List.mem_map.mpr ⟨t, List.mem_filter.mpr ⟨ht, hsol⟩, rfl⟩
      simpa [List.contains, List.elem_iff] using this
  have hlenpos :
      (0 < ((tracks.filter (fun v => v.soloed)).map Track.id).length) ↔
        ∃ u ∈ tracks, u.soloed = true := by
    rw [List.length_map, List.length_pos_iff_exists_mem]
    constructor
    · rintro ⟨v, hv⟩
      exact ⟨v, (List.mem_filter.mp hv).1, (List.mem_filter.mp hv).2⟩
    · rintro ⟨u, hu, hus⟩
      exact ⟨u, List.mem_filter.mpr ⟨hu, hus⟩⟩
  unfold includedTracks
  rw [List.mem_filter]
  simp only [ht, true_and]
  by_cases hAM : t.clips = [] ∧ collectTrackMidiNotes t ⟨some bpm, none⟩ = []
  · obtain ⟨h1, h2⟩ := hAM
    simp [h1, h2]
  · have hne : t.clips ≠ [] ∨ collectTrackMidiNotes t ⟨some bpm, none⟩ ≠ [] := by
      by_contra hno
      push_neg at hno
      exact hAM ⟨hno.1, hno.2⟩
    have hcond :
        (!decide (0 < t.clips.length) &&
          !decide (0 < (collectTrackMidiNotes t ⟨some bpm, none⟩).length)) = false := by
      rcases hne with h | h
      · simp [List.length_pos.mpr h]
      · simp [List.length_pos.mpr h]
    by_cases hsolo : ∃ u ∈ tracks, u.soloed = true
    · rw [if_neg (by simp [hcond]), if_pos (hlenpos.mpr hsolo)]
      constructor
      · intro hp
        have h1 := (Bool.and_eq_true _ _).mp hp
        refine ⟨hne, by simpa using h1.2, fun _ => hcontains.mp h1.1⟩
      · rintro ⟨-, hm, hs⟩
        exact (Bool.and_eq_true _ _).mpr ⟨hcontains.mpr (hs hsolo), by simp [hm]⟩
    · rw [if_neg (by simp [hcond]), if_neg (fun h => hsolo (hlenpos.mp h))]
      constructor
      · intro hp
        exact ⟨hne, by simpa using hp, fun h => absurd h hsolo⟩
      · rintro ⟨-, hm, -⟩
        simp [hm]

/-- C2, witness: the filter characterization applied to track A of the
concrete soloed/muted two-track project. -/
theorem mixdown_inclusion_filter_witness :
    (inclTrackA ∈ includedTracks [inclTrackA, inclTrackB] 120 ↔
      ((inclTrackA.clips ≠ [] ∨
          collectTrackMidiNotes inclTrackA ⟨some 120, none⟩ ≠ []) ∧
        inclTrackA.muted = false ∧
        ((∃ u ∈ [inclTrackA, inclTrackB], u.soloed = true) →
          inclTrackA.soloed = true))) ∧
    includedTracks [inclTrackA, inclTrackB] 120 = [inclTrackA] :=
  mixdown_inclusion_filter [inclTrackA, inclTrackB] 120 inclTrackA
    (by decide) (by decide)

/-- C3: `mixdownClipsAndMidi` aborts with a descriptive error when zero
tracks pass the inclusion filter, and likewise when the resolved project
duration is not greater than 0; it returns successfully only with a
non-empty inclusion list and a strictly positive duration, so neither
failure case ever yields a rendered (empty) buffer. -/
theorem mixdown_abort_conditions (tracks : List Track)
    (decode : String → Option ℚ) (midiRender : ℕ → Option ℚ) (bpm : ℚ) :
    (includedTracks tracks bpm = [] →
      mixdownClipsAndMidi tracks decode midiRender bpm =
        Except.error "No audible tracks (audio or MIDI) to mix down.") ∧
    (includedTracks tracks bpm ≠ [] →
      resolvedProjectDuration (includedTracks tracks bpm) decode midiRender bpm ≤ 0 →
      mixdownClipsAndMidi tracks decode midiRender bpm =
        Except.error "Project duration is 0 — nothing to render.") ∧
    (∀ d : ℚ, mixdownClipsAndMidi tracks decode midiRender bpm = Except.ok d →
      includedTracks tracks bpm ≠ [] ∧ 0 < d) := by
  refine ⟨fun h => ?_, fun h1 h2 => ?_, fun d hd => ?_⟩
  · simp [mixdownClipsAndMidi, h]
  · simp only [mixdownClipsAndMidi]
    rw [if_neg, if_pos h2]
    simpa [List.length_eq_zero] using h1
  · revert hd
    simp only [mixdownClipsAndMidi]
    split
    · intro h; cases h
    · split
      · intro h; cases h
      · intro h
        cases h
        refine ⟨?_, by linarith [not_le.mp (by assumption)]⟩
        simp_all [List.length_eq_zero]

/-- C3, witness: the empty project aborts with the no-audible-tracks error;
a one-track project whose only clip source never decodes is included but has
duration 0 and aborts with the zero-duration error. -/
theorem mixdown_abort_conditions_witness :
    mixdownClipsAndMidi [] (fun _ => none) (fun _ => none) 120 =
      Except.error "No audible tracks (audio or MIDI) to mix down." ∧
    mixdownClipsAndMidi [undecodableClipTrack] (fun _ => none) (fun _ => none)
      120 = Except.error "Project duration is 0 — nothing to render." :=
  ⟨(mixdown_abort_conditions [] (fun _ => none) (fun _ => none) 120).1
      (by with_unfolding_all rfl),
    (mixdown_abort_conditions [undecodableClipTrack] (fun _ => none)
          (fun _ => none) 120).2.1
      (by with_unfolding_all decide) (by with_unfolding_all decide)⟩

/-- C6: on a worker crash `handleWorkerError` drains the whole in-flight
queue to the main-thread fallback (no job stays pending) and schedules a
supervised recovery with backoff delay `min(cooldown·2^(attempt-1), cap)`;
the concrete three-consecutive-failure trace with `maxRetries = 3` attempts
recovery exactly three times with strictly increasing delays
(5000, 10000, 20000 ms), after which worker use is permanently disabled —
once `workerSupported` is false neither error handling nor recovery
re-enables it and every job takes the fallback path. -/
theorem worker_crash_recovery_policy (s : APState) (now : ℕ)
    (hns : s.workerRecovery.recoveryScheduled = false)
    (hlt : s.workerRecovery.currentRetries < s.workerRecovery.maxRetries) :
    ((handleWorkerError s now).2.1 = s.processingQueue ∧
      (handleWorkerError s now).1.processingQueue = []) ∧
    ((handleWorkerError s now).2.2 =
      some (min (s.workerRecovery.cooldownMs * 2 ^ s.workerRecovery.currentRetries)
        s.workerRecovery.maxCooldownMs)) ∧
    (apErr1.2.2 = some 5000 ∧ apErr2.2.2 = some 10000 ∧
      apErr3.2.2 = some 20000 ∧ 5000 < 10000 ∧ 10000 < 20000 ∧
      apErr4.2.2 = none ∧ apErr4.1.workerSupported = false ∧
      jobUsesWorker apErr4.1 = false ∧ apErr1.2.1 = apStart.processingQueue ∧
      apErr1.1.processingQueue = []) ∧
    (∀ s' : APState, s'.workerSupported = false →
      (handleWorkerError s' now).1.workerSupported = false ∧
      (∀ ok, (attemptWorkerRecovery s' ok).1.workerSupported = false) ∧
      jobUsesWorker s' = false) := by
  refine ⟨?_, ?_, by decide, fun s' h => ⟨?_, fun ok => ?_, ?_⟩⟩
  · unfold handleWorkerError
    dsimp only
    split_ifs <;> simp [scheduleWorkerRecovery, hns]
  · unfold handleWorkerError
    dsimp only
    rw [if_pos ⟨hlt, by simp [hns]⟩]
    simp [scheduleWorkerRecovery, hns]
  · unfold handleWorkerError scheduleWorkerRecovery
    dsimp only
    split_ifs <;> simp [h]
  · unfold attemptWorkerRecovery initializeWorker scheduleWorkerRecovery
    dsimp only
    split_ifs <;> simp_all
  · simp [jobUsesWorker, h]

/-- C6, witness: the fallback-drain conclusion at the fresh state with one
in-flight job. -/
theorem worker_crash_recovery_policy_witness :
    (handleWorkerError apStart 0).2.1 = apStart.processingQueue ∧
      (handleWorkerError apStart 0).1.processingQueue = [] :=
  (worker_crash_recovery_policy apStart 0 rfl (by decide)).1

/-- The dedup loop only emits notes with pairwise-distinct fixed-precision
keys, given that every accumulated note's key is already recorded in
`seen`. -/
theorem dedupNotesGo_pairwise (l : List CNote) :
    ∀ (seen : List (ℚ × ℚ × ℚ)) (acc : List CNote),
      (∀ a ∈ acc, noteKey a ∈ seen) →
      acc.Pairwise (fun a b => noteKey a ≠ noteKey b) →
      (dedupNotesGo l seen acc).Pairwise (fun a b => noteKey a ≠ noteKey b) := by
  induction l with
  | nil =>
    intro seen acc _ h2
    simpa [dedupNotesGo] using h2
  | cons n rest ih =>
    intro seen acc h1 h2
    rw [dedupNotesGo]
    split_ifs with hk
    · exact ih seen acc h1 h2
    · apply ih (noteKey n :: seen) (acc ++ [n])
      · intro a ha
        rcases List.mem_append.mp ha with h | h
        · exact List.mem_cons_of_mem _ (h1 a h)
        · rw [List.mem_singleton.mp h]
          exact List.mem_cons_self _ _
      · rw [List.pairwise_append]
        refine ⟨h2, List.pairwise_singleton _ _, ?_⟩
        intro a ha b hb heq
        rw [List.mem_singleton.mp hb] at heq
        exact hk (heq ▸ h1 a ha)

/-- C7, amended: the dedup step of `collectTrackMidiNotes` works by
fixed-precision bucketing, so its output never contains two notes with the
*same rounded key* (time rounded to the nearest 1 ms, duration to the
nearest 1 ms, frequency to the nearest 0.1 Hz) — exact duplicates arriving
through more than one substructure are removed — but notes that merely
coincide within those tolerances while straddling a rounding boundary may
both appear. -/
theorem collectTrackMidiNotes_dedup_by_key (track : Track) (tempo : TempoArg) :
    (collectTrackMidiNotes track tempo).Pairwise
      (fun a b => noteKey a ≠ noteKey b) := by
  unfold collectTrackMidiNotes
  exact dedupNotesGo_pairwise _ [] [] (by simp) (by simp)

set_option maxHeartbeats 1000000 in
/-- C7, counterexample: two collected notes 0.2 ms apart (same duration,
same frequency) — hence coinciding within the 1 ms / 1 ms / 0.1 Hz
tolerances — *both* appear in the output, because `0.0004 s` rounds to the
0 ms bucket while `0.0006 s` rounds to the 1 ms bucket. -/
theorem collectTrackMidiNotes_tolerance_counterexample :
    collectTrackMidiNotes nearDuplicateTrack ⟨some 120, none⟩ =
      [⟨1/2500, 1/2, 1, 440⟩, ⟨3/5000, 1/2, 1, 440⟩] ∧
    |(1/2500 : ℚ) - 3/5000| ≤ 1/1000 ∧ |(1/2 : ℚ) - 1/2| ≤ 1/1000 ∧
    |(440 : ℚ) - 440| ≤ 1/10 ∧
    (⟨1/2500, 1/2, 1, 440⟩ : CNote) ≠ ⟨3/5000, 1/2, 1, 440⟩ := by
  refine ⟨?_, ?_, ?_, ?_, by norm_num [CNote.mk.injEq]⟩
  · rw [collectTrackMidiNotes]
    norm_num [nearDuplicateTrack, emptyTrack, numOr, jsOrTruthy,
      getTrackMidiBaseOffsetSec, offsetToSec, pushNote, timeFromNote,
      durationFromNote, toNumber, stableSortBy, insertSorted, cnoteLE,
      dedupNotesGo, noteKey, roundPrec, jsRound_eq_round, round_eq,
      max_def, min_def, List.filterMap_cons, List.filterMap_nil]
  all_goals rw [abs_le]; constructor <;> norm_num

/-- C9: when the external effects chain fails on a track's enabled effects,
`processTrackEffects` returns the original (unprocessed) buffer instead of
propagating the error, so the mixdown proceeds with that track's
unprocessed audio. -/
theorem processTrackEffects_error_degrades {α : Type} (buffer : α)
    (track : Track) (chain : α → List EffectSpec → Except String α)
    (msg : String)
    (h : chain buffer (track.effects.filter (fun e => e.enabled != some false)) =
      Except.error msg) :
    processTrackEffects buffer track chain = buffer := by
  unfold processTrackEffects
  dsimp only
  split
  · rfl
  · rw [h]

/-- C9, witness: a failing chain on a one-effect track leaves the buffer
untouched. -/
theorem processTrackEffects_error_degrades_witness :
    processTrackEffects (5 : ℕ) { emptyTrack with effects := [⟨some true⟩] }
      (fun _ _ => Except.error "effects failed") = 5 :=
  processTrackEffects_error_degrades 5 _ _ "effects failed" rfl

/-- `schedHas` as membership of a key among the map's entries. -/
theorem schedHas_iff (m : List ((ℚ × ℚ) × SchedRec)) (k : ℚ × ℚ) :
    schedHas m k = true ↔ ∃ kv ∈ m, kv.1 = k := by
  simp [schedHas]

/-- A key absent from the map has no entry carrying it. -/
theorem schedHas_false_iff (m : List ((ℚ × ℚ) × SchedRec)) (k : ℚ × ℚ) :
    schedHas m k = false ↔ ∀ kv ∈ m, kv.1 ≠ k := by
  rw [← Bool.not_eq_true, schedHas_iff]
  push_neg
  rfl

/-- `schedHas` over an appended map. -/
theorem schedHas_append (m₁ m₂ : List ((ℚ × ℚ) × SchedRec)) (k : ℚ × ℚ) :
    schedHas (m₁ ++ m₂) k = (schedHas m₁ k || schedHas m₂ k) := by
  simp [schedHas, List.any_append]

/-- Invariants of the `scheduleNotes` scanning loop: the emitted submission
keys are pairwise distinct, each submitted key ends up present in the map,
each freshly submitted key was absent from the starting map, and every map
entry either came from the starting map or records a note of the list whose
`noteOffTime` is `startTime + note.startTime + note.duration` with
`note.startTime` inside the window. -/
theorem schedLoop_spec (S cs se : ℚ) :
    ∀ (notes : List SNote) (m : List ((ℚ × ℚ) × SchedRec)) (subs : List (ℚ × ℚ)),
      (∀ k ∈ subs, schedHas m k = true) → subs.Nodup →
      ((schedLoop S cs se notes m subs).2.Nodup ∧
        (∀ k ∈ (schedLoop S cs se notes m subs).2,
          schedHas (schedLoop S cs se notes m subs).1 k = true) ∧
        (∀ k ∈ (schedLoop S cs se notes m subs).2, k ∉ subs →
          schedHas m k = false) ∧
        (∀ kv ∈ (schedLoop S cs se notes m subs).1, kv ∈ m ∨
          ∃ n ∈ notes, kv.1 = snoteKey n ∧
            kv.2.noteOffTime = S + n.startTime + n.duration ∧
            cs ≤ n.startTime)) := by
  intro notes
  induction notes with
  | nil =>
    intro m subs h1 h2
    refine ⟨h2, h1, fun k hk hk' => absurd hk hk', fun kv hkv => Or.inl hkv⟩
  | cons note rest ih =>
    intro m subs h1 h2
    rw [schedLoop]
    split_ifs with hc
    · obtain ⟨hcs, hse, hnot⟩ := hc
      have hfresh : snoteKey note ∉ subs := fun hmem => hnot (h1 _ hmem)
      have h1' : ∀ k ∈ subs ++ [snoteKey note],
          schedHas (m ++ [(snoteKey note,
            ⟨S + note.startTime, S + note.startTime + note.duration,
              note.note⟩)]) k = true := by
        intro k hk
        rw [schedHas_append, Bool.or_eq_true]
        rcases List.mem_append.mp hk with h | h
        · exact Or.inl (h1 k h)
        · refine Or.inr ?_
          rw [List.mem_singleton.mp h, schedHas_iff]
          exact ⟨_, List.mem_singleton.mpr rfl, rfl⟩
      have h2' : (subs ++ [snoteKey note]).Nodup := by
        rw [List.nodup_append]
        exact ⟨h2, List.nodup_singleton _,
          fun a ha hb => hfresh ((List.mem_singleton.mp hb) ▸ ha)⟩
      obtain ⟨iA, iB, iC, iD⟩ := ih _ _ h1' h2'
      refine ⟨iA, iB, ?_, ?_⟩
      · intro k hk hknot
        by_cases hkey : k = snoteKey note
        · rw [hkey, ← Bool.not_eq_true]
          exact hnot
        · have : k ∉ subs ++ [snoteKey note] := by
            rw [List.mem_append]
            rintro (h | h)
            · exact hknot h
            · exact hkey (List.mem_singleton.mp h)
          have := iC k hk this
          rw [schedHas_append, Bool.or_eq_false_iff] at this
          exact this.1
      · intro kv hkv
        rcases iD kv hkv with h | ⟨n, hn, hrest⟩
        · rcases List.mem_append.mp h with h | h
          · exact Or.inl h
          · refine Or.inr ⟨note, List.mem_cons_self _ _, ?_⟩
            rw [List.mem_singleton.mp h]
            exact ⟨rfl, rfl, hcs⟩
        · exact Or.inr ⟨n, List.mem_cons_of_mem _ hn, hrest⟩
    · obtain ⟨iA, iB, iC, iD⟩ := ih m subs h1 h2
      refine ⟨iA, iB, iC, fun kv hkv => ?_⟩
      rcases iD kv hkv with h | ⟨n, hn, hrest⟩
      · exact Or.inl h
      · exact Or.inr ⟨n, List.mem_cons_of_mem _ hn, hrest⟩

/-- C8: the scheduling tick is idempotent against an unadvanced clock — for
every scheduler state whose notes respect the data-model invariant
`duration > 0` and every fixed audio-context time, two consecutive
`scheduleNotes` invocations submit pairwise-distinct on/off pairs to the
shared clock (no note's `pitch+startTime` key is submitted twice), because
a key already present in the scheduled-notes map is skipped and a
just-scheduled note's record survives the cleanup sweep. -/
theorem scheduleNotes_twice_no_double_schedule (s : SchedState) (now : ℚ)
    (htempo : 0 < s.tempo) (hdur : ∀ n ∈ s.notes, 0 < n.duration) :
    ((scheduleNotes s now).2 ++
      (scheduleNotes (scheduleNotes s now).1 now).2).Nodup := by
  by_cases hp : ¬ s.isPlaying = true ∨ ¬ s.hasInstrument = true
  · have hp' : s.isPlaying = false ∨ s.hasInstrument = false := by
      rcases hp with h | h
      · exact Or.inl (Bool.not_eq_true _ |>.mp h)
      · exact Or.inr (Bool.not_eq_true _ |>.mp h)
    simp [scheduleNotes, hp', hp]
  · have hcs : beatsToSeconds (secondsToBeats (now - s.startTime) s.tempo)
        s.tempo = now - s.startTime := by
      unfold beatsToSeconds secondsToBeats
      field_simp
    rcases h1 : schedLoop s.startTime
        (beatsToSeconds (secondsToBeats (now - s.startTime) s.tempo) s.tempo)
        (beatsToSeconds (secondsToBeats (now - s.startTime) s.tempo) s.tempo +
          s.lookaheadTime) s.notes s.scheduledNotes [] with ⟨m1, subs1⟩
    obtain ⟨iA, iB, iC, iD⟩ :=
      schedLoop_spec s.startTime
        (beatsToSeconds (secondsToBeats (now - s.startTime) s.tempo) s.tempo)
        (beatsToSeconds (secondsToBeats (now - s.startTime) s.tempo) s.tempo +
          s.lookaheadTime) s.notes s.scheduledNotes []
        (by simp) List.nodup_nil
    rw [h1] at iA iB iC iD
    have hstep1 : scheduleNotes s now =
        ({ s with scheduledNotes :=
            m1.filter (fun kv => ¬ kv.2.noteOffTime < now) }, subs1) := by
      unfold scheduleNotes
      rw [if_neg hp]
      dsimp only
      rw [h1]
    -- every pass-1 submission survives the cleanup
    have hsurvive : ∀ k ∈ subs1,
        schedHas (m1.filter (fun kv => ¬ kv.2.noteOffTime < now)) k = true := by
      intro k hk
      obtain ⟨kv, hkv, hkvk⟩ := (schedHas_iff _ _).mp (iB k hk)
      have hnew : ∃ n ∈ s.notes, kv.1 = snoteKey n ∧
          kv.2.noteOffTime = s.startTime + n.startTime + n.duration ∧
          beatsToSeconds (secondsToBeats (now - s.startTime) s.tempo) s.tempo ≤
            n.startTime := by
        rcases iD kv hkv with h | h
        · exfalso
          have hfalse := iC k hk (List.not_mem_nil k)
          rw [schedHas_false_iff] at hfalse
          exact hfalse kv h hkvk
        · exact h
      obtain ⟨n, hn, hkey, hoff, hwin⟩ := hnew
      rw [hcs] at hwin
      have hkeep : ¬ kv.2.noteOffTime < now := by
        rw [hoff]
        have := hdur n hn
        linarith
      rw [schedHas_iff]
      exact ⟨kv, List.mem_filter.mpr ⟨hkv, by simpa using hkeep⟩, hkvk⟩
    rcases h2 : schedLoop s.startTime
        (beatsToSeconds (secondsToBeats (now - s.startTime) s.tempo) s.tempo)
        (beatsToSeconds (secondsToBeats (now - s.startTime) s.tempo) s.tempo +
          s.lookaheadTime) s.notes
        (m1.filter (fun kv => ¬ kv.2.noteOffTime < now)) [] with ⟨m2, subs2⟩
    obtain ⟨jA, jB, jC, jD⟩ :=
      schedLoop_spec s.startTime
        (beatsToSeconds (secondsToBeats (now - s.startTime) s.tempo) s.tempo)
        (beatsToSeconds (secondsToBeats (now - s.startTime) s.tempo) s.tempo +
          s.lookaheadTime) s.notes
        (m1.filter (fun kv => ¬ kv.2.noteOffTime < now)) []
        (by simp) List.nodup_nil
    rw [h2] at jA jB jC jD
    have hstep2 : scheduleNotes
        ({ s with scheduledNotes :=
            m1.filter (fun kv => ¬ kv.2.noteOffTime < now) } : SchedState) now =
        ({ s with scheduledNotes :=
            m2.filter (fun kv => ¬ kv.2.noteOffTime < now) }, subs2) := by
      unfold scheduleNotes
      rw [if_neg hp]
      dsimp only
      rw [h2]
    rw [hstep1]
    dsimp only
    rw [hstep2]
    dsimp only
    rw [List.nodup_append]
    refine ⟨iA, jA, ?_⟩
    intro k hk1 hk2
    have habsent := jC k hk2 (List.not_mem_nil k)
    rw [hsurvive k hk1] at habsent
    cases habsent

/-- C8, witness: two ticks at a frozen clock on a playing one-note state. -/
theorem scheduleNotes_twice_no_double_schedule_witness :
    ((scheduleNotes schedSample 0).2 ++
      (scheduleNotes (scheduleNotes schedSample 0).1 0).2).Nodup :=
  scheduleNotes_twice_no_double_schedule schedSample 0
    (by norm_num [schedSample])
    (by
      intro n hn
      have hn' : n = ⟨60, 0, 1/2, 8/10⟩ := by simpa [schedSample] using hn
      rw [hn']
      norm_num)

/-- C10: when the target audio time is not in the future
(`audioTime ≤ now`), `scheduleAtTime` invokes the callback synchronously
exactly once before returning, hands back the no-op cancellation handle
(no asynchronous invocation is pending), and cancelling that handle does
nothing. -/
theorem scheduleAtTime_past_target {σ : Type} (callback : σ → σ)
    (audioTime now : ℚ) (state : σ) (h : audioTime ≤ now) :
    scheduleAtTime callback audioTime now state =
      (callback state, ScheduleHandle.noop) ∧
    handlePending ScheduleHandle.noop = false ∧
    (∀ s : σ, cancelHandle ScheduleHandle.noop s = s) := by
  refine ⟨?_, rfl, fun s => rfl⟩
  unfold scheduleAtTime
  have hd : audioTime - now ≤ 0 := sub_nonpos.mpr h
  simp [hd]

/-- C10, witness: a counter-incrementing callback at `audioTime = now = 3`
runs exactly once. -/
theorem scheduleAtTime_past_target_witness :
    scheduleAtTime Nat.succ 3 3 (0 : ℕ) = (1, ScheduleHandle.noop) ∧
    handlePending ScheduleHandle.noop = false ∧
    (∀ s : ℕ, cancelHandle ScheduleHandle.noop s = s) :=
  scheduleAtTime_past_target Nat.succ 3 3 0 (by norm_num)
